import Mathlib

/-!
Verification of the image-processing repository's transformation pipeline,
cache-key derivation, and asynchronous job lifecycle.

The JavaScript source is shallowly embedded: dynamic JSON values become the
`Json` inductive, JavaScript truthiness becomes `truthy`, `JSON.stringify`
with an array replacer (as used by `generateCacheKey` in src/config/cache.js)
becomes `stringifyWith`, and the two sharp pipelines (the inline one in
`transformImageSync`, src/controllers/imageController.js, and
`applyTransformations` in the image-processor service file) become functions
from a spec to the list of sharp calls they issue.

Numeric values are embedded as rationals (`Rat`); the decimal formatting of
numbers inside serialized JSON is abstracted by `numToStr`, which is a
function of the number, as every claim proved here depends on serialized
output only through its value, never through the concrete digit syntax.
-/

namespace ImageProc

/-- A JSON value, as manipulated by the JavaScript source.  Object fields are
an ordered association list, mirroring JavaScript property order. -/
inductive Json where
  | null : Json
  | bool (b : Bool) : Json
  | num (q : Rat) : Json
  | str (s : String) : Json
  | arr (elems : List Json) : Json
  | obj (fields : List (String × Json)) : Json

/-- JavaScript truthiness (`if (v)`): `null`, `false`, `0` and the empty
string are falsy; arrays and objects are always truthy. -/
def truthy : Json → Bool
  | .null => false
  | .bool b => b
  | .num q => q != 0
  | .str s => s != ""
  | .arr _ => true
  | .obj _ => true

/-- Property access `v.k`: defined for objects, `undefined` (here `none`)
otherwise. -/
def getField : Json → String → Option Json
  | .obj fs, k => fs.lookup k
  | _, _ => none

/-- The JavaScript `a || b` pattern applied to a possibly-absent property:
the property's value when present and truthy, else the default. -/
def jsOr (v : Option Json) (d : Json) : Json :=
  match v with
  | some x => if truthy x then x else d
  | none => d

/-- `Object.keys(t)` for an object; the source only ever applies it to the
transformation-spec object. -/
def topKeys : Json → List String
  | .obj fs => fs.map Prod.fst
  | _ => []

/-- JavaScript `Array.prototype.sort()` on key arrays: lexicographic string
order. -/
def sortKeys (l : List String) : List String :=
  l.insertionSort (· ≤ ·)

def isObj : Json → Bool
  | .obj _ => true
  | _ => false

/-- Decimal rendering of a JSON number.  The exact digit syntax JavaScript
produces is abstracted; only that it is a function of the numeric value
matters to the theorems below. -/
def numToStr (q : Rat) : String :=
  if q.den = 1 then toString q.num else toString q

def escapeChar (c : Char) : String :=
  if c = '"' then "\\\"" else if c = '\\' then "\\\\" else String.singleton c

/-- JSON string quoting (QuoteJSONString); escaping is modelled for the two
structural characters, which again only matters through being a function of
the string. -/
def quoteStr (s : String) : String :=
  "\"" ++ String.join (s.data.map escapeChar) ++ "\""

theorem sizeOf_lookup_lt {fs : List (String × Json)} {k : String} {v : Json}
    (h : fs.lookup k = some v) : sizeOf v < sizeOf fs := by
  induction fs with
  | nil => simp [List.lookup] at h
  | cons p fs ih =>
    obtain ⟨k', v'⟩ := p
    rw [List.lookup] at h
    by_cases hk : k == k'
    · rw [hk] at h
      cases h
      simp
      omega
    · rw [Bool.not_eq_true] at hk
      rw [hk] at h
      have := ih h
      simp
      omega

mutual

/-- ECMA-262 SerializeJSONObject with a PropertyList (the array replacer used
by `generateCacheKey`): for every object, at every nesting level, iterate the
replacer keys in order, skip keys absent from the object, and serialize the
present values recursively; array elements are all serialized. -/
def stringifyWith (K : List String) : Json → String
  | .null => "null"
  | .bool b => if b then "true" else "false"
  | .num q => numToStr q
  | .str s => quoteStr s
  | .arr xs => "[" ++ String.intercalate "," (stringifyList K xs) ++ "]"
  | .obj fs => "\x7b" ++ String.intercalate "," (stringifyProps K K fs) ++ "\x7d"
termination_by t => (sizeOf t, 0)

def stringifyList (K : List String) : List Json → List String
  | [] => []
  | x :: xs => stringifyWith K x :: stringifyList K xs
termination_by xs => (sizeOf xs, 0)

def stringifyProps (K : List String) : List String → List (String × Json) → List String
  | [], _ => []
  | k :: ks, fs =>
    match h : fs.lookup k with
    | none => stringifyProps K ks fs
    | some v => (quoteStr k ++ ":" ++ stringifyWith K v) :: stringifyProps K ks fs
termination_by ks fs => (sizeOf fs, ks.length)
decreasing_by
  all_goals first
    | decreasing_tactic
    | (simp_wf; exact Prod.Lex.left _ _ (sizeOf_lookup_lt h))

end

/-- Order on object fields by key, used to state field-order canonicalization. -/
def fieldLe (p q : String × Json) : Prop := p.1 ≤ q.1

instance : DecidableRel fieldLe := fun p q => inferInstanceAs (Decidable (p.1 ≤ q.1))

instance : IsTotal (String × Json) fieldLe := ⟨fun p q => le_total p.1 q.1⟩

instance : IsTrans (String × Json) fieldLe := ⟨fun _ _ _ h h' => le_trans h h'⟩

def sortFields (fs : List (String × Json)) : List (String × Json) :=
  fs.insertionSort fieldLe

mutual

/-- Recursive canonical form of a JSON value: object fields sorted by key at
every nesting level.  Two values are field-reorderings of one another (same
field-value pairs at every level, in any entry order) exactly when their
canonical forms agree, so `canon s1 = canon s2` formalizes the claims'
"re-ordering of fields without changing any field-value pair". -/
def canon : Json → Json
  | .obj fs => .obj (sortFields (canonFields fs))
  | .arr xs => .arr (canonList xs)
  | .null => .null
  | .bool b => .bool b
  | .num q => .num q
  | .str s => .str s

def canonList : List Json → List Json
  | [] => []
  | x :: xs => canon x :: canonList xs

def canonFields : List (String × Json) → List (String × Json)
  | [] => []
  | (k, v) :: fs => (k, canon v) :: canonFields fs

end

mutual

/-- Well-formedness of an embedded JSON value: no object level carries
duplicate keys (JavaScript objects cannot). -/
def wf : Json → Bool
  | .obj fs => decide ((fs.map Prod.fst).Nodup) && wfFields fs
  | .arr xs => wfList xs
  | .null => true
  | .bool _ => true
  | .num _ => true
  | .str _ => true

def wfList : List Json → Bool
  | [] => true
  | x :: xs => wf x && wfList xs

def wfFields : List (String × Json) → Bool
  | [] => true
  | (_, v) :: fs => wf v && wfFields fs

end

def base64Alphabet : List Char :=
  "ABCDEFGHIJKLMNOPQRSTUVWXYZabcdefghijklmnopqrstuvwxyz0123456789+/".data

def b64c (n : Nat) : Char := base64Alphabet.getD n 'A'

/-- Standard base64 of a byte sequence, as produced by
`Buffer.from(s).toString('base64')`. -/
def base64Chunks : List Nat → String
  | [] => ""
  | [a] => String.mk [b64c (a / 4), b64c (a % 4 * 16)] ++ "=="
  | [a, b] => String.mk [b64c (a / 4), b64c (a % 4 * 16 + b / 16), b64c (b % 16 * 4)] ++ "="
  | a :: b :: c :: rest =>
    String.mk [b64c (a / 4), b64c (a % 4 * 16 + b / 16), b64c (b % 16 * 4 + c / 64),
      b64c (c % 64)] ++ base64Chunks rest

/-- UTF-8 encoding of one character; `Buffer.from(string)` encodes UTF-8. -/
def utf8EncodeCharNat (c : Char) : List Nat :=
  let n := c.toNat
  if n < 128 then [n]
  else if n < 2048 then [192 + n / 64, 128 + n % 64]
  else if n < 65536 then [224 + n / 4096, 128 + n / 64 % 64, 128 + n % 64]
  else [240 + n / 262144, 128 + n / 4096 % 64, 128 + n / 64 % 64, 128 + n % 64]

def utf8Bytes (s : String) : List Nat := s.data.flatMap utf8EncodeCharNat

def base64encode (s : String) : String := base64Chunks (utf8Bytes s)

/-- `generateCacheKey` from src/config/cache.js:
`JSON.stringify(transformations, Object.keys(transformations).sort())`
followed by `img_<imageId>_<base64 of that serialization>`. -/
def generateCacheKey (imageId : String) (transformations : Json) : String :=
  let sortedTransformations :=
    stringifyWith (sortKeys (topKeys transformations)) transformations
  "img_" ++ imageId ++ "_" ++ base64encode sortedTransformations

theorem keys_canonFields (fs : List (String × Json)) :
    (canonFields fs).map Prod.fst = fs.map Prod.fst := by
  induction fs with
  | nil => rfl
  | cons p fs ih => obtain ⟨k, v⟩ := p; simp [canonFields, ih]

theorem lookup_canonFields (fs : List (String × Json)) (k : String) :
    (canonFields fs).lookup k = (fs.lookup k).map canon := by
  induction fs with
  | nil => rfl
  | cons p fs ih =>
    obtain ⟨k', v⟩ := p
    by_cases hk : k == k'
    · simp [canonFields, List.lookup, hk]
    · rw [Bool.not_eq_true] at hk
      simp [canonFields, List.lookup, hk, ih]

theorem wfFields_lookup {fs : List (String × Json)} {k : String} {v : Json}
    (h : wfFields fs = true) (hl : fs.lookup k = some v) : wf v = true := by
  induction fs with
  | nil => simp [List.lookup] at hl
  | cons p fs ih =>
    obtain ⟨k', v'⟩ := p
    rw [wfFields, Bool.and_eq_true] at h
    rw [List.lookup] at hl
    by_cases hk : k == k'
    · rw [hk] at hl; cases hl; exact h.1
    · rw [Bool.not_eq_true] at hk
      rw [hk] at hl
      exact ih h.2 hl

theorem lookup_perm {fs gs : List (String × Json)} (h : fs.Perm gs)
    (hnd : (fs.map Prod.fst).Nodup) (k : String) : fs.lookup k = gs.lookup k := by
  induction h with
  | nil => rfl
  | cons p h ih =>
    obtain ⟨k', v⟩ := p
    simp only [List.map_cons, List.nodup_cons] at hnd
    by_cases hk : k == k'
    · simp [List.lookup, hk]
    · rw [Bool.not_eq_true] at hk
      simp [List.lookup, hk, ih hnd.2]
  | swap p q l =>
    obtain ⟨k₁, v₁⟩ := p
    obtain ⟨k₂, v₂⟩ := q
    have hne : k₂ ≠ k₁ := by
      have hx := hnd
      simp only [List.map_cons, List.nodup_cons, List.mem_cons] at hx
      exact fun hEq => hx.1 (Or.inl hEq)
    by_cases h1 : k = k₁ <;> by_cases h2 : k = k₂
    · exact absurd (h1.symm.trans h2) (fun hEq => hne hEq.symm)
    · have e1 : (k == k₁) = true := beq_iff_eq.mpr h1
      have e2 : (k == k₂) = false := by simp [h2]
      simp [List.lookup, e1, e2]
    · have e1 : (k == k₁) = false := by simp [h1]
      have e2 : (k == k₂) = true := beq_iff_eq.mpr h2
      simp [List.lookup, e1, e2]
    · have e1 : (k == k₁) = false := by simp [h1]
      have e2 : (k == k₂) = false := by simp [h2]
      simp [List.lookup, e1, e2]
  | trans h₁ h₂ ih₁ ih₂ =>
    rw [ih₁ hnd, ih₂ (((h₁.map Prod.fst).nodup_iff).mp hnd)]

theorem map_fst_sortFields (l : List (String × Json)) :
    (sortFields l).map Prod.fst = sortKeys (l.map Prod.fst) := by
  apply @List.eq_of_perm_of_sorted String (· ≤ ·) _ _
  · exact ((List.perm_insertionSort fieldLe l).map Prod.fst).trans
      (List.perm_insertionSort (· ≤ ·) (l.map Prod.fst)).symm
  · exact List.Pairwise.map Prod.fst (fun _ _ hab => hab)
      (List.sorted_insertionSort fieldLe l)
  · exact List.sorted_insertionSort (· ≤ ·) (l.map Prod.fst)

theorem stringifyProps_cons_none {K ks : List String} {fs : List (String × Json)}
    {k : String} (h : fs.lookup k = none) :
    stringifyProps K (k :: ks) fs = stringifyProps K ks fs := by
  rw [stringifyProps]
  split <;> simp_all

theorem stringifyProps_cons_some {K ks : List String} {fs : List (String × Json)}
    {k : String} {v : Json} (h : fs.lookup k = some v) :
    stringifyProps K (k :: ks) fs
      = (quoteStr k ++ ":" ++ stringifyWith K v) :: stringifyProps K ks fs := by
  rw [stringifyProps]
  split <;> simp_all

mutual

theorem stringify_canon (K : List String) (t : Json) (h : wf t = true) :
    stringifyWith K (canon t) = stringifyWith K t := by
  match t with
  | .null | .bool _ | .num _ | .str _ => rfl
  | .arr xs =>
    rw [canon]
    rw [stringifyWith, stringifyWith, stringifyList_canon K xs (by rwa [wf] at h)]
  | .obj fs =>
    rw [wf, Bool.and_eq_true, decide_eq_true_eq] at h
    rw [canon]
    rw [stringifyWith, stringifyWith, stringifyProps_canon K K fs h.1 h.2]
termination_by (sizeOf t, 0)

theorem stringifyList_canon (K : List String) (xs : List Json)
    (h : wfList xs = true) :
    stringifyList K (canonList xs) = stringifyList K xs := by
  match xs with
  | [] => rfl
  | x :: xs =>
    rw [wfList, Bool.and_eq_true] at h
    rw [canonList]
    rw [stringifyList, stringifyList, stringify_canon K x h.1,
      stringifyList_canon K xs h.2]
termination_by (sizeOf xs, 0)

theorem stringifyProps_canon (K ks : List String) (fs : List (String × Json))
    (hnd : (fs.map Prod.fst).Nodup) (h : wfFields fs = true) :
    stringifyProps K ks (sortFields (canonFields fs)) = stringifyProps K ks fs := by
  match ks with
  | [] => simp [stringifyProps]
  | k :: ks =>
    have hndc : ((canonFields fs).map Prod.fst).Nodup := by
      rwa [keys_canonFields]
    have hlook : (sortFields (canonFields fs)).lookup k = (fs.lookup k).map canon := by
      unfold sortFields
      rw [← lookup_perm (List.perm_insertionSort fieldLe (canonFields fs)).symm hndc k]
      exact lookup_canonFields fs k
    cases hfk : fs.lookup k with
    | none =>
      have hl2 : (sortFields (canonFields fs)).lookup k = none := by
        rw [hlook, hfk]; rfl
      rw [stringifyProps_cons_none hl2, stringifyProps_cons_none hfk]
      exact stringifyProps_canon K ks fs hnd h
    | some v =>
      have hl2 : (sortFields (canonFields fs)).lookup k = some (canon v) := by
        rw [hlook, hfk]; rfl
      have hv : wf v = true := wfFields_lookup h hfk
      have hsz : sizeOf v < sizeOf fs := sizeOf_lookup_lt hfk
      rw [stringifyProps_cons_some hl2, stringifyProps_cons_some hfk,
        stringify_canon K v hv, stringifyProps_canon K ks fs hnd h]
termination_by (sizeOf fs, ks.length)

end

theorem topKeys_canon (fs : List (String × Json)) :
    topKeys (canon (.obj fs)) = sortKeys (topKeys (.obj fs)) := by
  rw [canon, topKeys, topKeys, map_fst_sortFields, keys_canonFields]

theorem isObj_obj {t : Json} (h : isObj t = true) : ∃ fs, t = .obj fs := by
  cases t <;> simp_all [isObj]

/-- Claim C1: for every transformation spec (a JSON object without duplicate
keys at any level) and every image identifier, re-ordering the spec's fields
— top-level fields and fields inside nested objects alike — without changing
any field-value pair (formalized: the recursive key-sorted canonical forms
agree) yields the same cache key from `generateCacheKey`. -/
theorem c1_cacheKey_field_order_invariant (imageId : String) (s1 s2 : Json)
    (ho1 : isObj s1 = true) (ho2 : isObj s2 = true)
    (h1 : wf s1 = true) (h2 : wf s2 = true)
    (hr : canon s1 = canon s2) :
    generateCacheKey imageId s1 = generateCacheKey imageId s2 := by
  obtain ⟨fs1, rfl⟩ := isObj_obj ho1
  obtain ⟨fs2, rfl⟩ := isObj_obj ho2
  have hk : sortKeys (topKeys (Json.obj fs1)) = sortKeys (topKeys (Json.obj fs2)) := by
    rw [← topKeys_canon, ← topKeys_canon, hr]
  have hs : stringifyWith (sortKeys (topKeys (Json.obj fs2))) (Json.obj fs1)
      = stringifyWith (sortKeys (topKeys (Json.obj fs2))) (Json.obj fs2) := by
    rw [← stringify_canon _ _ h1, ← stringify_canon _ _ h2, hr]
  simp only [generateCacheKey]
  rw [hk, hs]

/-- Witness for C1 at a concrete spec: `{resize:{width:100,height:50},
format:"png"}` re-ordered at both levels. -/
theorem c1_witness :
    isObj (Json.obj [("resize", .obj [("width", .num 100), ("height", .num 50)]),
        ("format", .str "png")]) = true
    ∧ generateCacheKey "img1"
        (Json.obj [("resize", .obj [("width", .num 100), ("height", .num 50)]),
          ("format", .str "png")])
      = generateCacheKey "img1"
        (Json.obj [("format", .str "png"),
          ("resize", .obj [("height", .num 50), ("width", .num 100)])]) :=
  ⟨rfl, c1_cacheKey_field_order_invariant "img1" _ _ rfl rfl (by decide) (by decide)
    (by simp +decide [canon, canonList, canonFields, sortFields, List.insertionSort,
      List.orderedInsert, fieldLe])⟩

mutual

/-- Removal, at every level of a JSON value, of the object fields whose key
is not in `K` — exactly what serializing with the array replacer `K` keeps. -/
def filterK (K : List String) : Json → Json
  | .obj fs => .obj (filterKFields K fs)
  | .arr xs => .arr (filterKList K xs)
  | .null => .null
  | .bool b => .bool b
  | .num q => .num q
  | .str s => .str s

def filterKList (K : List String) : List Json → List Json
  | [] => []
  | x :: xs => filterK K x :: filterKList K xs

def filterKFields (K : List String) : List (String × Json) → List (String × Json)
  | [] => []
  | (k, v) :: fs =>
    if k ∈ K then (k, filterK K v) :: filterKFields K fs else filterKFields K fs

end

/-- Erase, at nesting depth one and below, every object field whose name is
not in `K`; top-level fields are all kept.  Two specs "differ only in the
values of nested fields whose names do not also occur as top-level field
names" exactly when their `eraseNested` images agree for `K` the top-level
name list. -/
def eraseNested (K : List String) : Json → Json
  | .obj fs => .obj (fs.map fun p => (p.1, filterK K p.2))
  | .arr xs => .arr (xs.map (filterK K))
  | j => j

theorem lookup_filterKFields {K : List String} {k : String}
    (hk : k ∈ K) (fs : List (String × Json)) :
    (filterKFields K fs).lookup k = (fs.lookup k).map (filterK K) := by
  induction fs with
  | nil => rfl
  | cons p fs ih =>
    obtain ⟨k', v⟩ := p
    by_cases hkk : k = k'
    · subst hkk
      rw [filterKFields, if_pos hk]
      simp [List.lookup]
    · have e : (k == k') = false := by simp [hkk]
      rw [filterKFields]
      by_cases hmem : k' ∈ K
      · rw [if_pos hmem]
        simp [List.lookup, e, ih]
      · rw [if_neg hmem]
        simp [List.lookup, e, ih]

mutual

theorem stringify_filterK (K : List String) (t : Json) :
    stringifyWith K (filterK K t) = stringifyWith K t := by
  match t with
  | .null | .bool _ | .num _ | .str _ => rfl
  | .arr xs =>
    rw [filterK, stringifyWith, stringifyWith, stringifyList_filterK K xs]
  | .obj fs =>
    rw [filterK, stringifyWith, stringifyWith,
      stringifyProps_filterK K K fs (fun _ hx => hx)]
termination_by (sizeOf t, 0)

theorem stringifyList_filterK (K : List String) (xs : List Json) :
    stringifyList K (filterKList K xs) = stringifyList K xs := by
  match xs with
  | [] => rfl
  | x :: xs =>
    rw [filterKList, stringifyList, stringifyList, stringify_filterK K x,
      stringifyList_filterK K xs]
termination_by (sizeOf xs, 0)

theorem stringifyProps_filterK (K ks : List String) (fs : List (String × Json))
    (hks : ∀ k ∈ ks, k ∈ K) :
    stringifyProps K ks (filterKFields K fs) = stringifyProps K ks fs := by
  match ks with
  | [] => simp [stringifyProps]
  | k :: ks =>
    have hkK : k ∈ K := hks k (List.mem_cons_self k ks)
    have hks' : ∀ x ∈ ks, x ∈ K := fun x hx => hks x (List.mem_cons_of_mem k hx)
    cases hfk : fs.lookup k with
    | none =>
      have hl2 : (filterKFields K fs).lookup k = none := by
        rw [lookup_filterKFields hkK, hfk]; rfl
      rw [stringifyProps_cons_none hl2, stringifyProps_cons_none hfk]
      exact stringifyProps_filterK K ks fs hks'
    | some v =>
      have hl2 : (filterKFields K fs).lookup k = some (filterK K v) := by
        rw [lookup_filterKFields hkK, hfk]; rfl
      have hsz : sizeOf v < sizeOf fs := sizeOf_lookup_lt hfk
      rw [stringifyProps_cons_some hl2, stringifyProps_cons_some hfk,
        stringify_filterK K v, stringifyProps_filterK K ks fs hks']
termination_by (sizeOf fs, ks.length)

end

mutual

theorem filterK_idem (K : List String) (t : Json) :
    filterK K (filterK K t) = filterK K t := by
  match t with
  | .null | .bool _ | .num _ | .str _ => rfl
  | .arr xs => rw [filterK, filterK, filterKList_idem K xs]
  | .obj fs => rw [filterK, filterK, filterKFields_idem K fs]

theorem filterKList_idem (K : List String) (xs : List Json) :
    filterKList K (filterKList K xs) = filterKList K xs := by
  match xs with
  | [] => rfl
  | x :: xs =>
    rw [filterKList, filterKList, filterK_idem K x, filterKList_idem K xs]

theorem filterKFields_idem (K : List String) (fs : List (String × Json)) :
    filterKFields K (filterKFields K fs) = filterKFields K fs := by
  match fs with
  | [] => rfl
  | (k, v) :: fs =>
    by_cases hk : k ∈ K
    · rw [filterKFields, if_pos hk, filterKFields, if_pos hk, filterK_idem K v,
        filterKFields_idem K fs]
    · rw [filterKFields, if_neg hk, filterKFields_idem K fs]

end

theorem filterKFields_eraseNested (K : List String) (fs : List (String × Json)) :
    filterKFields K (fs.map fun p => (p.1, filterK K p.2)) = filterKFields K fs := by
  induction fs with
  | nil => rfl
  | cons p fs ih =>
    obtain ⟨k, v⟩ := p
    by_cases hk : k ∈ K
    · simp only [List.map_cons]
      rw [filterKFields, if_pos hk, filterKFields, if_pos hk, filterK_idem K v, ih]
    · simp only [List.map_cons]
      rw [filterKFields, if_neg hk, filterKFields, if_neg hk, ih]

theorem filterK_eraseNested (K : List String) (fs : List (String × Json)) :
    filterK K (eraseNested K (.obj fs)) = filterK K (.obj fs) := by
  rw [eraseNested, filterK, filterK, filterKFields_eraseNested]

/-- Truthiness of a possibly-absent property (`undefined` is falsy). -/
def truthyOpt : Option Json → Bool
  | some v => truthy v
  | none => false

/-- A property that the source guards with `if (x)`: the value when present
and truthy. -/
def getTruthy (t : Json) (k : String) : Option Json :=
  match getField t k with
  | some v => if truthy v then some v else none
  | none => none

/-- One sharp call, carrying the parameters passed at the call site.  Where a
call site omits an option that the other pipeline passes explicitly, sharp's
own documented default is filled in (resize `withoutEnlargement` defaults to
false, rotate background to opaque black, jpeg `mozjpeg` to false, png
`compressionLevel` to 6), so two stages are equal exactly when they request
the same operation from sharp. -/
inductive Stage where
  | resize (width height : Option Json) (fit position : Json) (withoutEnlargement : Bool)
  | extract (left top : Json) (width height : Option Json)
  | rotate (angle : Json) (bgR bgG bgB bgAlpha : Rat)
  | flip
  | flop
  | grayscale
  | tint (r g b : Rat)
  | modulate (brightness saturation hue : Option Json)
  | blur (sigma : Json)
  | sharpen
  | negate
  | normalize
  | gamma (g : Json)
  | composite (watermark : Json) (gravity : Json)
  | jpeg (quality : Json) (mozjpeg : Bool)
  | png (quality : Json) (compressionLevel : Nat)
  | webp (quality : Json)
  | gif
  | tiff (quality : Json)
  | avif (quality : Json)
  | toFormat (fmt : Json)

/-- sharp treats a null and an absent dimension alike (auto). -/
def normDim : Option Json → Option Json
  | some .null => none
  | v => v

/-- Strict JavaScript equality of a value with a string literal
(`outputFormat === 'jpeg'`). -/
def jsEqStr (v : Json) (s : String) : Bool :=
  match v with
  | .str x => x == s
  | _ => false

/-- Resize call of the inline sync pipeline: always issued when `resize` is
truthy, passing `resize.width`/`resize.height` as given (no
`withoutEnlargement` option, so sharp's default false applies). -/
def syncResize (t : Json) : List Stage :=
  match getTruthy t "resize" with
  | some r =>
    [.resize (normDim (getField r "width")) (normDim (getField r "height"))
      (jsOr (getField r "fit") (.str "cover"))
      (jsOr (getField r "position") (.str "center")) false]
  | none => []

/-- Resize call of the worker pipeline: issued only when a truthy width or
height is present, with `withoutEnlargement: resize.withoutEnlargement || false`. -/
def workerResize (t : Json) : List Stage :=
  match getTruthy t "resize" with
  | some r =>
    let fit := jsOr (getField r "fit") (.str "cover")
    let pos := jsOr (getField r "position") (.str "center")
    let woE := truthyOpt (getField r "withoutEnlargement")
    if truthyOpt (getField r "width") && truthyOpt (getField r "height") then
      [.resize (getField r "width") (getField r "height") fit pos woE]
    else if truthyOpt (getField r "width") then
      [.resize (getField r "width") none fit pos woE]
    else if truthyOpt (getField r "height") then
      [.resize none (getField r "height") fit pos woE]
    else []
  | none => []

/-- Crop (`extract`) call of the inline sync pipeline. -/
def syncCrop (t : Json) : List Stage :=
  match getTruthy t "crop" with
  | some c =>
    [.extract (jsOr (getField c "x") (.num 0)) (jsOr (getField c "y") (.num 0))
      (getField c "width") (getField c "height")]
  | none => []

/-- Crop (`extract`) call of the worker pipeline (same code as the sync one). -/
def workerCrop (t : Json) : List Stage :=
  match getTruthy t "crop" with
  | some c =>
    [.extract (jsOr (getField c "x") (.num 0)) (jsOr (getField c "y") (.num 0))
      (getField c "width") (getField c "height")]
  | none => []

/-- Rotate call of the sync pipeline: guarded by truthiness (`if (rotate)`),
no background option, so sharp's default opaque black applies. -/
def syncRotate (t : Json) : List Stage :=
  match getTruthy t "rotate" with
  | some r => [.rotate r 0 0 0 1]
  | none => []

/-- Rotate call of the worker pipeline: guarded by
`rotate !== undefined && rotate !== null`, with an explicit transparent white
background. -/
def workerRotate (t : Json) : List Stage :=
  match getField t "rotate" with
  | some .null => []
  | some r => [.rotate r 255 255 255 0]
  | none => []

def syncFlip (t : Json) : List Stage :=
  if truthyOpt (getField t "flip") then [.flip] else []

def workerFlip (t : Json) : List Stage :=
  if truthyOpt (getField t "flip") then [.flip] else []

def syncFlop (t : Json) : List Stage :=
  if truthyOpt (getField t "flop") then [.flop] else []

def workerFlop (t : Json) : List Stage :=
  if truthyOpt (getField t "flop") then [.flop] else []

/-- Filter calls of the inline sync pipeline: grayscale, sepia as a bare
tint, blur passing the value unchecked, sharpen, negate. -/
def syncFilters (t : Json) : List Stage :=
  match getTruthy t "filters" with
  | some f =>
    (if truthyOpt (getField f "grayscale") then [Stage.grayscale] else [])
    ++ (if truthyOpt (getField f "sepia") then [Stage.tint 112 66 20] else [])
    ++ (match getTruthy f "blur" with
        | some b => [Stage.blur b]
        | none => [])
    ++ (if truthyOpt (getField f "sharpen") then [Stage.sharpen] else [])
    ++ (if truthyOpt (getField f "negate") then [Stage.negate] else [])
  | none => []

/-- Filter calls of the worker pipeline: sepia is desaturation (modulate
saturation 0.5) plus the tint; blur falls back to radius 3 for non-numeric
truthy values; and normalize, gamma, brightness, saturation and hue exist
only here. -/
def workerFilters (t : Json) : List Stage :=
  match getTruthy t "filters" with
  | some f =>
    (if truthyOpt (getField f "grayscale") then [Stage.grayscale] else [])
    ++ (if truthyOpt (getField f "sepia") then
          [Stage.modulate none (some (.num (1/2))) none, Stage.tint 112 66 20]
        else [])
    ++ (match getTruthy f "blur" with
        | some b => [Stage.blur (match b with | .num q => .num q | _ => .num 3)]
        | none => [])
    ++ (if truthyOpt (getField f "sharpen") then [Stage.sharpen] else [])
    ++ (if truthyOpt (getField f "negate") then [Stage.negate] else [])
    ++ (if truthyOpt (getField f "normalize") then [Stage.normalize] else [])
    ++ (match getTruthy f "gamma" with
        | some g => [Stage.gamma g]
        | none => [])
    ++ (match getTruthy f "brightness" with
        | some b => [Stage.modulate (some b) none none]
        | none => [])
    ++ (match getTruthy f "saturation" with
        | some s => [Stage.modulate none (some s) none]
        | none => [])
    ++ (match getTruthy f "hue" with
        | some h => [Stage.modulate none none (some h)]
        | none => [])
  | none => []

/-- Watermark composite of the worker pipeline (`if (watermark &&
watermark.text)`); the generated SVG badge is a function of the watermark
object, which the stage carries whole. -/
def workerWatermark (t : Json) : List Stage :=
  match getTruthy t "watermark" with
  | some w =>
    if truthyOpt (getField w "text") then
      [.composite w (jsOr (getField w "position") (.str "southeast"))]
    else []
  | none => []

/-- Output format of the sync pipeline:
`format || path.extname(image.filename).slice(1) || 'jpeg'`. -/
def syncOutputFormat (t : Json) (filenameExt : String) : Json :=
  jsOr (getField t "format") (jsOr (some (.str filenameExt)) (.str "jpeg"))

/-- Encode call of the sync pipeline: quality defaults to 80 (`compress` is
never consulted), jpeg without mozjpeg, png without an explicit
compressionLevel (sharp default 6). -/
def syncEncode (t : Json) (filenameExt : String) : List Stage :=
  let outputFormat := syncOutputFormat t filenameExt
  let q := jsOr (getField t "quality") (.num 80)
  if jsEqStr outputFormat "jpeg" || jsEqStr outputFormat "jpg" then [.jpeg q false]
  else if jsEqStr outputFormat "png" then [.png q 6]
  else if jsEqStr outputFormat "webp" then [.webp q]
  else [.toFormat outputFormat]

/-- `String.prototype.toLowerCase()` as applied to format names and file
extensions (ASCII; the Unicode cases JavaScript also lowers never arise for
these). -/
def lowerAscii (s : String) : String :=
  String.mk (s.data.map Char.toLower)

/-- Output format of the worker pipeline:
`format || path.extname(sourcePath).slice(1).toLowerCase() || 'jpeg'`. -/
def workerOutputFormat (t : Json) (sourceExt : String) : Json :=
  jsOr (getField t "format") (jsOr (some (.str (lowerAscii sourceExt))) (.str "jpeg"))

/-- Encode call of the worker pipeline: quality
`quality || (compress ? 60 : 80)`, switch on the lower-cased format with
jpeg+mozjpeg, png compressionLevel 9/6, webp, gif, tiff, avif branches.  (A
non-string explicit format would throw at `.toLowerCase()`; both pipelines
are modelled as falling through to a generic re-encode there.) -/
def workerEncode (t : Json) (sourceExt : String) : List Stage :=
  let outputFormat := workerOutputFormat t sourceExt
  let outputQuality :=
    jsOr (getField t "quality")
      (.num (if truthyOpt (getField t "compress") then 60 else 80))
  match outputFormat with
  | .str s =>
    match lowerAscii s with
    | "jpeg" | "jpg" => [.jpeg outputQuality true]
    | "png" => [.png outputQuality (if truthyOpt (getField t "compress") then 9 else 6)]
    | "webp" => [.webp outputQuality]
    | "gif" => [.gif]
    | "tiff" | "tif" => [.tiff outputQuality]
    | "avif" => [.avif outputQuality]
    | _ => [.toFormat outputFormat]
  | _ => [.toFormat outputFormat]

/-- The sharp pipeline built inline by `transformImageSync`
(src/controllers/imageController.js): resize, crop, rotate, flip, flop, the
restricted filter set, then encode. -/
def syncStages (t : Json) (filenameExt : String) : List Stage :=
  syncResize t ++ syncCrop t ++ syncRotate t ++ syncFlip t ++ syncFlop t
    ++ syncFilters t ++ syncEncode t filenameExt

/-- The sharp pipeline built by `applyTransformations` (the worker's image
processor): resize, crop, rotate with background fill, flip, flop, the
extended filter set, text watermark, then encode honouring `compress`. -/
def workerStages (t : Json) (sourceExt : String) : List Stage :=
  workerResize t ++ workerCrop t ++ workerRotate t ++ workerFlip t ++ workerFlop t
    ++ workerFilters t ++ workerWatermark t ++ workerEncode t sourceExt

/-- Per-image processing status, the values written to
`processingStatus` by the controllers and the worker. -/
inductive Status where
  | pending
  | processing
  | completed
  | failed
  deriving DecidableEq

/-- The image record fields the transformation paths read and write. -/
structure ImageRecord where
  isProcessing : Bool
  processingStatus : Option Status
  processingError : Option String
  transformationsHistory : List Json
  filename : String
  path : String

/-- An `ApiError(status, message)` thrown by a controller. -/
structure ApiError where
  status : Nat
  message : String
  deriving DecidableEq

/-- Environment a `transformImage` call runs in: the image record the lookup
returns (scoped by user) and whether the source file exists on disk. -/
structure AsyncCtx where
  image : Option ImageRecord
  fileExists : Bool

/-- The queue payload built by `transformImage`; the uuid job id, user id
and timestamp are abstracted (they are fresh values never examined by the
claims). -/
structure JobMessage where
  imageId : String
  sourcePath : String
  originalFilename : String
  transformations : Json

/-- `transformImage` (async endpoint, src/controllers/imageController.js):
404 when the record or file is missing, 409 when `isProcessing` is already
set, otherwise mark the record pending/processing-flagged and publish
exactly one job message. -/
def transformImage (ctx : AsyncCtx) (id : String) (t : Json) :
    Except ApiError (ImageRecord × JobMessage) :=
  match ctx.image with
  | none => .error ⟨404, "Image not found"⟩
  | some img =>
    if img.isProcessing then
      .error ⟨409, "Image is currently being processed. Please wait."⟩
    else if !ctx.fileExists then
      .error ⟨404, "Image file not found on disk"⟩
    else
      .ok ({ img with
              isProcessing := true
              processingStatus := some .pending
              processingError := none },
           ⟨id, img.path, img.filename, t⟩)

/-- The messages one `transformImage` call publishes to the queue. -/
def transformImagePublishes (ctx : AsyncCtx) (id : String) (t : Json) :
    List JobMessage :=
  match transformImage ctx id t with
  | .ok (_, m) => [m]
  | .error _ => []

/-- Environment a `transformImageSync` call runs in; `cachedFileExists`
models `fs.existsSync` on a cached output path. -/
structure SyncCtx where
  image : Option ImageRecord
  fileExists : Bool
  cache : List (String × String)
  cachedFileExists : String → Bool

/-- Observable outcome of a successful `transformImageSync` call: either the
cached output path is served, or the inline sharp pipeline runs and its
result is cached under the computed key. -/
inductive SyncOutcome where
  | cached (path : String)
  | transformed (stages : List Stage) (cacheKey : String)

/-- `path.extname(name).slice(1)`: the text after the final dot, empty when
the name has no dot. -/
def extOf (filename : String) : String :=
  match (filename.splitOn ".").reverse with
  | [] => ""
  | [_] => ""
  | e :: _ => e

/-- `transformImageSync` (sync endpoint): look up record and file, then the
cache; a hit whose file still exists is served directly, otherwise the
inline pipeline runs.  Unlike `transformImage`, nothing on this path
consults `isProcessing`. -/
def transformImageSync (ctx : SyncCtx) (id : String) (t : Json) :
    Except ApiError SyncOutcome :=
  match ctx.image with
  | none => .error ⟨404, "Image not found"⟩
  | some img =>
    if !ctx.fileExists then
      .error ⟨404, "Image file not found on disk"⟩
    else
      let cacheKey := generateCacheKey id t
      match ctx.cache.lookup cacheKey with
      | some p =>
        if ctx.cachedFileExists p then .ok (.cached p)
        else .ok (.transformed (syncStages t (extOf img.filename)) cacheKey)
      | none => .ok (.transformed (syncStages t (extOf img.filename)) cacheKey)

/-- Queue acknowledgement performed by the consumer wrapper in
`consumeFromQueue` (src/config/rabbitmq.js): ack on normal return, nack with
`requeue = true` on a thrown error. -/
inductive QueueAction where
  | ack
  | nackRequeue
  deriving DecidableEq

/-- Output descriptor returned by a successful pipeline run. -/
structure PipeResult where
  path : String
  width : Rat
  height : Rat

/-- `processJob` (src/workers/imageWorker.js) as a function of the pipeline
outcome: first write `processingStatus = 'processing'` clearing the error;
on success append a history entry and write `completed` with
`isProcessing = false`; on failure write `failed` with the error message and
`isProcessing = false` and re-throw, which makes the consumer wrapper nack
the message with requeue.  Also returned is the sequence of
`processingStatus` values written. -/
def processJob (img : ImageRecord) (t : Json) (outcome : Except String PipeResult) :
    ImageRecord × List Status × QueueAction :=
  match outcome with
  | .ok _ =>
    ({ img with
        isProcessing := false
        processingStatus := some .completed
        processingError := none
        transformationsHistory := img.transformationsHistory ++ [t] },
     [.processing, .completed], .ack)
  | .error e =>
    ({ img with
        isProcessing := false
        processingStatus := some .failed
        processingError := some e },
     [.processing, .failed], .nackRequeue)

/-- Successive deliveries of one job message under RabbitMQ redelivery:
a nacked-with-requeue message returns to the queue and is delivered again;
an acked message is removed and consumption of it stops.  `outcomes` lists
the pipeline outcome of each successive execution attempt.  Returns the
final record, the concatenated status writes, and whether the message is
still queued afterwards. -/
def workerRun (img : ImageRecord) (t : Json) :
    List (Except String PipeResult) → ImageRecord × List Status × Bool
  | [] => (img, [], true)
  | o :: rest =>
    match processJob img t o with
    | (img', writes, .ack) => (img', writes, false)
    | (img', writes, .nackRequeue) =>
      let r := workerRun img' t rest
      (r.1, writes ++ r.2.1, r.2.2)

/-- A freshly enqueued job's image record, as `transformImage` leaves it. -/
def initialRecord : ImageRecord :=
  { isProcessing := true
    processingStatus := some .pending
    processingError := none
    transformationsHistory := []
    filename := "source.jpeg"
    path := "uploads/source.jpeg" }

/-- The full per-image status write sequence of one async job: the producer
writes `pending`, then every delivery attempt writes what `processJob`
writes. -/
def statusTrace (t : Json) (outcomes : List (Except String PipeResult)) : List Status :=
  .pending :: (workerRun initialRecord t outcomes).2.1

/-- `n` failing delivery attempts: each writes `processing` then `failed`. -/
def failCycles : Nat → List Status
  | 0 => []
  | n + 1 => .processing :: .failed :: failCycles n

/-- Subsequence test on status sequences. -/
def isSubseqOf : List Status → List Status → Bool
  | [], _ => true
  | _ :: _, [] => false
  | a :: l, b :: m => if a = b then isSubseqOf l m else isSubseqOf (a :: l) m

/-- Image dimensions in whole pixels. -/
structure Dims where
  width : Int
  height : Int
  deriving DecidableEq

/-- An integer-valued JSON number, as sharp demands for geometry. -/
def getInt : Json → Option Int
  | .num q => if q.den = 1 then some q.num else none
  | _ => none

/-- Effect of one sharp call on the image dimensions.  sharp is an external
library; its dimensional behaviour is modelled for the operations the claims
exercise: `cover`, `contain` and `fill` resizes produce exactly the target
box, a single-dimension resize preserves aspect ratio (with integer division
standing in for sharp's rounding), `extract` demands the rectangle lie
inside the current bounds and fails with sharp's `extract_area` message
otherwise, and rotation by a multiple of 90 degrees keeps or swaps the
dimensions.  Remaining geometry (aspect-fit policies, non-cardinal angles)
is out of the claims' reach and yields an explicit unmodelled error rather
than a guess. -/
def stageDims (d : Dims) : Stage → Except String Dims
  | .resize w h fit _ _ =>
    match (w.map getInt).join, (h.map getInt).join with
    | some wq, some hq =>
      if jsEqStr fit "inside" || jsEqStr fit "outside" then
        .error "resize fit policy not modelled"
      else .ok ⟨wq, hq⟩
    | some wq, none => .ok ⟨wq, d.height * wq / d.width⟩
    | none, some hq => .ok ⟨d.width * hq / d.height, hq⟩
    | none, none => .ok d
  | .extract l t w h =>
    match getInt l, getInt t, (w.map getInt).join, (h.map getInt).join with
    | some lq, some tq, some wq, some hq =>
      if 0 ≤ lq ∧ 0 ≤ tq ∧ 0 < wq ∧ 0 < hq ∧ lq + wq ≤ d.width ∧ tq + hq ≤ d.height
      then .ok ⟨wq, hq⟩
      else .error "extract_area: bad extract area"
    | _, _, _, _ => .error "extract: invalid parameters"
  | .rotate a _ _ _ _ =>
    match getInt a with
    | some q =>
      if q % 180 = 0 then .ok d
      else if q % 90 = 0 then .ok ⟨d.height, d.width⟩
      else .error "non-cardinal rotation not modelled"
    | none => .error "rotate: invalid angle"
  | _ => .ok d

def runStagesDims (d : Dims) : List Stage → Except String Dims
  | [] => .ok d
  | s :: rest =>
    match stageDims d s with
    | .ok d' => runStagesDims d' rest
    | .error e => .error e

/-- Dimensional behaviour of `applyTransformations` (worker pipeline). -/
def applyTransformationsDims (src : Dims) (t : Json) (sourceExt : String) :
    Except String Dims :=
  runStagesDims src (workerStages t sourceExt)

/-- Dimensional behaviour of the inline pipeline of `transformImageSync`. -/
def transformImageSyncDims (src : Dims) (t : Json) (filenameExt : String) :
    Except String Dims :=
  runStagesDims src (syncStages t filenameExt)

/-- `maxKeys` given to the NodeCache constructor in src/config/cache.js. -/
def cacheMaxKeys : Nat := 1000

/-- Backing state of the node-cache instance (TTL bookkeeping is not
modelled; the capacity check node-cache performs first is). -/
structure NodeCacheState where
  entries : List (String × String)

/-- `setInCache`: node-cache `set` with `maxKeys` configured throws
ECACHEFULL as soon as the stored key count has reached `maxKeys` — nothing
is evicted and nothing is stored; otherwise it inserts or overwrites.
`setInCache` catches the throw and returns false. -/
def setInCache (c : NodeCacheState) (k v : String) : NodeCacheState × Bool :=
  if cacheMaxKeys ≤ c.entries.length then (c, false)
  else
    match c.entries.lookup k with
    | some _ =>
      ({ entries := c.entries.map fun p => if p.1 = k then (k, v) else p }, true)
    | none => ({ entries := c.entries ++ [(k, v)] }, true)

/-- `deleteFromCache`: node-cache `del`. -/
def deleteFromCache (c : NodeCacheState) (k : String) : NodeCacheState :=
  { entries := c.entries.filter fun p => p.1 ≠ k }

/-- `getCacheStats().keys`: the number of live entries node-cache reports. -/
def getCacheStats (c : NodeCacheState) : Nat := c.entries.length

inductive CacheOp where
  | set (k v : String)
  | del (k : String)

def applyCacheOps : NodeCacheState → List CacheOp → NodeCacheState
  | c, [] => c
  | c, .set k v :: ops => applyCacheOps (setInCache c k v).1 ops
  | c, .del k :: ops => applyCacheOps (deleteFromCache c k) ops

instance : DecidableEq (Except String Dims) := fun a b =>
  match a, b with
  | .ok x, .ok y => if h : x = y then isTrue (by rw [h]) else isFalse (by simp [h])
  | .error e, .error f => if h : e = f then isTrue (by rw [h]) else isFalse (by simp [h])
  | .ok _, .error _ => isFalse (by simp)
  | .error _, .ok _ => isFalse (by simp)

/-- The spec of claim C3:
`{crop:{x:0,y:0,width:500,height:400}, resize:{width:250,height:200}}`. -/
def c3spec : Json :=
  .obj [("crop", .obj [("x", .num 0), ("y", .num 0), ("width", .num 500),
          ("height", .num 400)]),
        ("resize", .obj [("width", .num 250), ("height", .num 200)])]

/-- Counterexample to claim C3: on a 1000×800 source, the pipeline does not
produce a 250×200 output for this spec — it fails, because the code applies
resize before crop and the 500×400 extract exceeds the 250×200 resized
bounds.  Both the worker pipeline and the inline sync pipeline fail the same
way. -/
theorem c3_counterexample :
    applyTransformationsDims ⟨1000, 800⟩ c3spec "jpeg"
      = .error "extract_area: bad extract area"
    ∧ applyTransformationsDims ⟨1000, 800⟩ c3spec "jpeg" ≠ .ok ⟨250, 200⟩
    ∧ transformImageSyncDims ⟨1000, 800⟩ c3spec "jpeg"
      = .error "extract_area: bad extract area" :=
  ⟨by decide, by decide, by decide⟩

/-- Amended C3: the pipeline applies resize before crop (the worker stage
list for this spec is resize, then extract, then encode), so on a 1000×800
source the resize yields 250×200 and the subsequent 500×400 extract fails
with sharp's `extract_area` error; no 250×200 output is produced. -/
theorem c3_amended_resize_precedes_crop :
    workerStages c3spec "jpeg"
      = [.resize (some (.num 250)) (some (.num 200)) (.str "cover") (.str "center") false,
         .extract (.num 0) (.num 0) (some (.num 500)) (some (.num 400)),
         .jpeg (.num 80) true]
    ∧ applyTransformationsDims ⟨1000, 800⟩ c3spec "jpeg"
      = .error "extract_area: bad extract area" :=
  ⟨by with_unfolding_all rfl, by decide⟩

/-- Claim C2: two specs with the same top-level field names that differ only
in the values of nested fields whose names do not also occur as top-level
field names (formalized: erasing such nested fields makes them equal) get
the identical cache key from `generateCacheKey` — the sorted top-level key
array passed as the `JSON.stringify` replacer erases every nested field not
named in it — and consequently `transformImageSync`, asked for the second
spec while the cache holds the first spec's output, serves that output. -/
theorem c2_replacer_erases_nested_values (id : String) (s1 s2 : Json)
    (ho1 : isObj s1 = true) (ho2 : isObj s2 = true)
    (hk : sortKeys (topKeys s1) = sortKeys (topKeys s2))
    (he : eraseNested (sortKeys (topKeys s1)) s1
        = eraseNested (sortKeys (topKeys s1)) s2)
    (img : ImageRecord) (cache : List (String × String)) (cfe : String → Bool)
    (p : String)
    (hcache : cache.lookup (generateCacheKey id s1) = some p)
    (hex : cfe p = true) :
    generateCacheKey id s1 = generateCacheKey id s2
    ∧ transformImageSync ⟨some img, true, cache, cfe⟩ id s2 = .ok (.cached p) := by
  obtain ⟨fs1, rfl⟩ := isObj_obj ho1
  obtain ⟨fs2, rfl⟩ := isObj_obj ho2
  have hser : stringifyWith (sortKeys (topKeys (Json.obj fs1))) (Json.obj fs1)
      = stringifyWith (sortKeys (topKeys (Json.obj fs1))) (Json.obj fs2) := by
    rw [← stringify_filterK (sortKeys (topKeys (Json.obj fs1))) (Json.obj fs1),
      ← stringify_filterK (sortKeys (topKeys (Json.obj fs1))) (Json.obj fs2),
      ← filterK_eraseNested (sortKeys (topKeys (Json.obj fs1))) fs1,
      ← filterK_eraseNested (sortKeys (topKeys (Json.obj fs1))) fs2, he]
  have hkey : generateCacheKey id (Json.obj fs1) = generateCacheKey id (Json.obj fs2) := by
    simp only [generateCacheKey]
    rw [← hk, hser]
  refine ⟨hkey, ?_⟩
  simp [transformImageSync, hkey.symm, hcache, hex]

theorem lookup_single_self (k v : String) :
    ([(k, v)] : List (String × String)).lookup k = some v := by
  simp [List.lookup]

/-- Concrete C2 instance: `{resize:{width:100}}` versus `{resize:{width:200}}`. -/
def c2specA : Json := .obj [("resize", .obj [("width", .num 100)])]

def c2specB : Json := .obj [("resize", .obj [("width", .num 200)])]

/-- Witness for C2: the two specs above share the top-level name `resize`
and differ only in the nested `width`, so they collide on one cache key, and
the sync endpoint serves the first spec's cached output for the second spec. -/
theorem c2_witness :
    generateCacheKey "img1" c2specA = generateCacheKey "img1" c2specB
    ∧ transformImageSync
        ⟨some initialRecord, true,
          [(generateCacheKey "img1" c2specA, "processed/out1.png")],
          fun _ => true⟩ "img1" c2specB
      = .ok (.cached "processed/out1.png") :=
  c2_replacer_erases_nested_values "img1" c2specA c2specB rfl rfl rfl
    (by simp +decide [c2specA, c2specB, eraseNested, filterK, filterKFields, filterKList])
    initialRecord _ _ _
    (lookup_single_self (generateCacheKey "img1" c2specA) "processed/out1.png") rfl

/-- Delivery outcomes of the C4 counterexample run: the first attempt fails
(and the message is therefore requeued), the second attempt succeeds. -/
def c4outcomes : List (Except String PipeResult) :=
  [.error "extract_area: bad extract area", .ok ⟨"processed/out.png", 250, 200⟩]

/-- Counterexample to claim C4: because a failed job's message is nacked
with requeue and reprocessed, one failing attempt followed by a successful
redelivery writes pending, processing, failed, processing, completed — not a
subsequence of pending → processing → completed nor of
pending → processing → failed: the job re-enters `processing` after the
terminal `failed`. -/
theorem c4_counterexample :
    statusTrace (.obj []) c4outcomes
      = [.pending, .processing, .failed, .processing, .completed]
    ∧ isSubseqOf (statusTrace (.obj []) c4outcomes)
        [.pending, .processing, .completed] = false
    ∧ isSubseqOf (statusTrace (.obj []) c4outcomes)
        [.pending, .processing, .failed] = false :=
  ⟨rfl, rfl, rfl⟩

/-- Amended C4: a job's status sequence is `pending`, then `processing,
failed` once per failing delivery attempt — the failed message is requeued
and re-enters `processing`, contrary to terminal-state monotonicity — ending
with `processing, completed` when an attempt succeeds; `completed` is final
and `pending` is never revisited. -/
theorem c4_amended_status_shape (t : Json)
    (outcomes : List (Except String PipeResult)) :
    (∃ n, statusTrace t outcomes
        = .pending :: (failCycles n ++ [.processing, .completed]))
    ∨ (∃ n, statusTrace t outcomes = .pending :: failCycles n) := by
  have key : ∀ (os : List (Except String PipeResult)) (img : ImageRecord),
      (∃ n, (workerRun img t os).2.1 = failCycles n ++ [.processing, .completed])
      ∨ (∃ n, (workerRun img t os).2.1 = failCycles n) := by
    intro os
    induction os with
    | nil => exact fun img => .inr ⟨0, rfl⟩
    | cons o rest ih =>
      intro img
      cases o with
      | ok r => exact .inl ⟨0, by simp [workerRun, processJob, failCycles]⟩
      | error e =>
        rcases ih { img with
            isProcessing := false
            processingStatus := some .failed
            processingError := some e } with ⟨n, hn⟩ | ⟨n, hn⟩
        · exact .inl ⟨n + 1, by simp [workerRun, processJob, failCycles, hn]⟩
        · exact .inr ⟨n + 1, by simp [workerRun, processJob, failCycles, hn]⟩
  rcases key outcomes initialRecord with ⟨n, hn⟩ | ⟨n, hn⟩
  · exact .inl ⟨n, by rw [statusTrace, hn]⟩
  · exact .inr ⟨n, by rw [statusTrace, hn]⟩

/-- Claim C5: a `transformImage` call for an image record whose
`isProcessing` flag is true fails with the 409 AlreadyProcessing error and
publishes no job message to the queue. -/
theorem c5_async_rejects_when_processing (ctx : AsyncCtx) (id : String)
    (t : Json) (img : ImageRecord) (himg : ctx.image = some img)
    (hflag : img.isProcessing = true) :
    transformImage ctx id t
      = .error ⟨409, "Image is currently being processed. Please wait."⟩
    ∧ transformImagePublishes ctx id t = [] := by
  have h : transformImage ctx id t
      = .error ⟨409, "Image is currently being processed. Please wait."⟩ := by
    simp [transformImage, himg, hflag]
  exact ⟨h, by simp [transformImagePublishes, h]⟩

/-- Witness for C5 at a concrete busy record. -/
theorem c5_witness :
    transformImage ⟨some initialRecord, true⟩ "img1" (.obj [])
      = .error ⟨409, "Image is currently being processed. Please wait."⟩
    ∧ transformImagePublishes ⟨some initialRecord, true⟩ "img1" (.obj []) = [] :=
  c5_async_rejects_when_processing ⟨some initialRecord, true⟩ "img1" (.obj [])
    initialRecord rfl rfl

/-- Counterexample to claim C6: the synchronous endpoint does not reject a
request while `isProcessing` is true — with the flag set it still runs the
inline pipeline (the async endpoint alone rejects). -/
theorem c6_counterexample :
    initialRecord.isProcessing = true
    ∧ transformImageSync ⟨some initialRecord, true, [], fun _ => false⟩ "img1"
        (.obj [])
      = .ok (.transformed (syncStages (.obj []) (extOf initialRecord.filename))
          (generateCacheKey "img1" (.obj []))) :=
  ⟨rfl, rfl⟩

/-- Amended C6: while a transformation is in flight only the asynchronous
endpoint rejects with AlreadyProcessing; `transformImageSync` never consults
`isProcessing` — its result is the same whatever the flag's value — so it
will run a second transformation concurrently. -/
theorem c6_amended_only_async_rejects (img : ImageRecord) (fe : Bool)
    (cache : List (String × String)) (cfe : String → Bool) (id : String)
    (t : Json) (b : Bool) :
    transformImage ⟨some { img with isProcessing := true }, fe⟩ id t
      = .error ⟨409, "Image is currently being processed. Please wait."⟩
    ∧ transformImageSync ⟨some { img with isProcessing := b }, fe, cache, cfe⟩ id t
      = transformImageSync ⟨some { img with isProcessing := true }, fe, cache, cfe⟩
          id t := by
  constructor
  · simp [transformImage]
  · simp [transformImageSync]

/-- Claim C7: a failing pipeline run leaves the record with status `failed`,
the error message recorded, `isProcessing` cleared, and the message nacked
with requeue. -/
theorem c7_failure_recording (img : ImageRecord) (t : Json) (e : String) :
    (processJob img t (.error e)).1.processingStatus = some .failed
    ∧ (processJob img t (.error e)).1.processingError = some e
    ∧ (processJob img t (.error e)).1.isProcessing = false
    ∧ (processJob img t (.error e)).2.2 = .nackRequeue :=
  ⟨rfl, rfl, rfl, rfl⟩

theorem workerRun_replicate_error_queued (t : Json) (e : String) :
    ∀ (n : Nat) (img : ImageRecord),
      (workerRun img t (List.replicate n (.error e))).2.2 = true := by
  intro n
  induction n with
  | zero => exact fun img => rfl
  | succ n ih => exact fun img => by simp [List.replicate, workerRun, processJob, ih]

theorem workerRun_replicate_error_writes (t : Json) (e : String) :
    ∀ (n : Nat) (img : ImageRecord),
      (workerRun img t (List.replicate n (.error e))).2.1.length = 2 * n := by
  intro n
  induction n with
  | zero => exact fun img => rfl
  | succ n ih =>
    intro img
    simp [List.replicate, workerRun, processJob, ih]
    omega

/-- Counterexample to claim C8: redelivery of a permanently failing job is
not bounded — there is no number of failing attempts after which the message
stops being requeued, since every failure is nacked with `requeue = true`. -/
theorem c8_counterexample :
    ¬ ∃ B : Nat, (workerRun initialRecord (.obj [])
        (List.replicate B (.error "ProcessingFailed"))).2.2 = false := by
  rintro ⟨B, hB⟩
  rw [workerRun_replicate_error_queued (.obj []) "ProcessingFailed" B initialRecord]
    at hB
  exact Bool.noConfusion hB

/-- Amended C8: redelivery via negative-acknowledge is unbounded: after any
number of failing attempts the message is still queued for another delivery,
and every one of those attempts was fully processed (two status writes
each). -/
theorem c8_amended_unbounded_redelivery (t : Json) (e : String) (n : Nat)
    (img : ImageRecord) :
    (workerRun img t (List.replicate n (.error e))).2.2 = true
    ∧ (workerRun img t (List.replicate n (.error e))).2.1.length = 2 * n :=
  ⟨workerRun_replicate_error_queued t e n img,
   workerRun_replicate_error_writes t e n img⟩

theorem setInCache_length_le {c : NodeCacheState} (k v : String)
    (h : c.entries.length ≤ cacheMaxKeys) :
    (setInCache c k v).1.entries.length ≤ cacheMaxKeys := by
  unfold setInCache
  by_cases hfull : cacheMaxKeys ≤ c.entries.length
  · rw [if_pos hfull]
    exact h
  · rw [if_neg hfull]
    cases hl : c.entries.lookup k with
    | some _ => simpa using h
    | none =>
      simp only [List.length_append, List.length_cons, List.length_nil]
      omega

theorem applyCacheOps_length_le (ops : List CacheOp) :
    ∀ c : NodeCacheState, c.entries.length ≤ cacheMaxKeys →
      (applyCacheOps c ops).entries.length ≤ cacheMaxKeys := by
  induction ops with
  | nil => exact fun c h => h
  | cons op ops ih =>
    intro c h
    cases op with
    | set k v => exact ih _ (setInCache_length_le k v h)
    | del k =>
      apply ih
      calc (deleteFromCache c k).entries.length
          ≤ c.entries.length := List.length_filter_le _ _
        _ ≤ cacheMaxKeys := h

/-- Amended C9: `getCacheStats` never reports more than the configured
capacity of 1000 live entries, whatever sequence of cache operations ran —
but not because of eviction: an insertion at capacity simply fails (see the
counterexample theorem). -/
theorem c9_amended_stats_bounded (ops : List CacheOp) :
    getCacheStats (applyCacheOps ⟨[]⟩ ops) ≤ cacheMaxKeys :=
  applyCacheOps_length_le ops ⟨[]⟩ (by simp)

/-- The i-th distinct cache key used by the C9 counterexample. -/
def kKey (i : Nat) : String := String.mk (List.replicate i 'a')

theorem kKey_injective : Function.Injective kKey := by
  intro a b h
  have h2 : List.replicate a 'a' = List.replicate b 'a' := congrArg String.data h
  simpa using congrArg List.length h2

/-- `n` insertions under distinct keys. -/
def fillOps (n : Nat) : List CacheOp :=
  (List.range n).map fun i => .set (kKey i) "p"

theorem applyCacheOps_append (l1 l2 : List CacheOp) :
    ∀ c, applyCacheOps c (l1 ++ l2) = applyCacheOps (applyCacheOps c l1) l2 := by
  induction l1 with
  | nil => exact fun c => rfl
  | cons op l1 ih =>
    intro c
    cases op with
    | set k v => simp [applyCacheOps, ih]
    | del k => simp [applyCacheOps, ih]

theorem lookup_eq_none_of_not_mem_keys {l : List (String × String)} {k : String}
    (h : k ∉ l.map Prod.fst) : l.lookup k = none := by
  induction l with
  | nil => rfl
  | cons p l ih =>
    obtain ⟨k', v⟩ := p
    simp only [List.map_cons, List.mem_cons] at h
    push_neg at h
    have e : (k == k') = false := by simp [h.1]
    simp [List.lookup, e, ih h.2]

theorem fillOps_result : ∀ n, n ≤ cacheMaxKeys →
    applyCacheOps ⟨[]⟩ (fillOps n)
      = ⟨(List.range n).map fun i => (kKey i, "p")⟩ := by
  intro n
  induction n with
  | zero => intro _; rfl
  | succ n ih =>
    intro hn
    have hstep : fillOps (n + 1) = fillOps n ++ [.set (kKey n) "p"] := by
      simp [fillOps, List.range_succ]
    rw [hstep, applyCacheOps_append, ih (by omega)]
    have hlen : ((List.range n).map fun i => (kKey i, "p")).length = n := by simp
    have hnotmem : kKey n ∉ (((List.range n).map fun i => (kKey i, "p")).map Prod.fst) := by
      simp only [List.map_map]
      intro hmem
      obtain ⟨i, hi, hEq⟩ := List.mem_map.mp hmem
      have hi' : i < n := List.mem_range.mp hi
      have : i = n := kKey_injective hEq
      omega
    have hlook := lookup_eq_none_of_not_mem_keys hnotmem
    have hfull : ¬ cacheMaxKeys ≤ ((List.range n).map fun i => (kKey i, "p")).length := by
      rw [hlen]
      unfold cacheMaxKeys at hn ⊢
      omega
    simp only [applyCacheOps, setInCache, hlook, if_neg hfull]
    simp [List.range_succ]

/-- Counterexample to claim C9: after 1000 insertions under distinct keys the
cache is at capacity, and the next insertion of a fresh key does not evict
anything and does not succeed — node-cache throws ECACHEFULL, `setInCache`
catches it and returns false, and the cache is left unchanged. -/
theorem c9_counterexample :
    getCacheStats (applyCacheOps ⟨[]⟩ (fillOps cacheMaxKeys)) = cacheMaxKeys
    ∧ (setInCache (applyCacheOps ⟨[]⟩ (fillOps cacheMaxKeys))
        (kKey cacheMaxKeys) "p").2 = false
    ∧ (setInCache (applyCacheOps ⟨[]⟩ (fillOps cacheMaxKeys))
        (kKey cacheMaxKeys) "p").1
      = applyCacheOps ⟨[]⟩ (fillOps cacheMaxKeys) := by
  have hfull := fillOps_result cacheMaxKeys (le_refl _)
  rw [hfull]
  have hlen : ((List.range cacheMaxKeys).map fun i => (kKey i, "p")).length
      = cacheMaxKeys := by simp
  refine ⟨by simp [getCacheStats, hlen], ?_, ?_⟩
  · simp [setInCache, hlen]
  · simp [setInCache, hlen]

/-- A resize dimension the two pipelines treat identically: absent, null
(both mean "auto" to sharp) or truthy. -/
def dimOK : Option Json → Bool
  | none => true
  | some .null => true
  | some v => truthy v

/-- The shared fragment: specs on which the inline sync pipeline and the
worker pipeline issue identical sharp calls — no active watermark, no
`compress`, no `rotate`, filters restricted to grayscale, numeric blur,
sharpen and negate, resize dimensions absent/null or truthy with no
`withoutEnlargement`, and an explicit png or webp `format`. -/
def commonFragment (t : Json) : Bool :=
  (match getTruthy t "watermark" with
   | some w => !truthyOpt (getField w "text")
   | none => true)
  && !truthyOpt (getField t "compress")
  && (getField t "rotate").isNone
  && (match getTruthy t "filters" with
      | some f =>
        !truthyOpt (getField f "sepia")
        && !truthyOpt (getField f "normalize")
        && !truthyOpt (getField f "gamma")
        && !truthyOpt (getField f "brightness")
        && !truthyOpt (getField f "saturation")
        && !truthyOpt (getField f "hue")
        && (match getTruthy f "blur" with
            | some (.num _) => true
            | some _ => false
            | none => true)
      | none => true)
  && (match getTruthy t "resize" with
      | some r =>
        dimOK (getField r "width") && dimOK (getField r "height")
        && (truthyOpt (getField r "width") || truthyOpt (getField r "height"))
        && !truthyOpt (getField r "withoutEnlargement")
      | none => true)
  && (match getField t "format" with
      | some (.str s) => s == "png" || s == "webp"
      | _ => false)

theorem normDim_of_truthy {v : Option Json} (h : truthyOpt v = true) :
    normDim v = v := by
  match v with
  | none => rfl
  | some .null => simp [truthyOpt, truthy] at h
  | some (.bool b) => rfl
  | some (.num q) => rfl
  | some (.str s) => rfl
  | some (.arr xs) => rfl
  | some (.obj fs) => rfl

theorem normDim_of_dimOK_not_truthy {v : Option Json} (hd : dimOK v = true)
    (h : truthyOpt v = false) : normDim v = none := by
  match v with
  | none => rfl
  | some .null => rfl
  | some (.bool b) => simp_all [dimOK, truthyOpt]
  | some (.num q) => simp_all [dimOK, truthyOpt]
  | some (.str s) => simp_all [dimOK, truthyOpt]
  | some (.arr xs) => simp_all [dimOK, truthyOpt]
  | some (.obj fs) => simp_all [dimOK, truthyOpt]

theorem getTruthy_eq_none {f : Json} {k : String}
    (h : truthyOpt (getField f k) = false) : getTruthy f k = none := by
  unfold getTruthy
  unfold truthyOpt at h
  cases hg : getField f k with
  | none => rfl
  | some v =>
    rw [hg] at h
    simp at h
    simp [h]

theorem frag_resize {t : Json}
    (hr : (match getTruthy t "resize" with
      | some r =>
        dimOK (getField r "width") && dimOK (getField r "height")
        && (truthyOpt (getField r "width") || truthyOpt (getField r "height"))
        && !truthyOpt (getField r "withoutEnlargement")
      | none => true) = true) :
    syncResize t = workerResize t := by
  unfold syncResize workerResize
  cases hg : getTruthy t "resize" with
  | none => rfl
  | some r =>
    rw [hg] at hr
    simp only [Bool.and_eq_true, Bool.or_eq_true, Bool.not_eq_true'] at hr
    obtain ⟨⟨⟨hdw, hdh⟩, hor⟩, hwoe⟩ := hr
    by_cases hw : truthyOpt (getField r "width") = true
      <;> by_cases hh : truthyOpt (getField r "height") = true
    · simp [hw, hh, normDim_of_truthy hw, normDim_of_truthy hh, hwoe]
    · have hh' : truthyOpt (getField r "height") = false := by simpa using hh
      simp [hw, hh', normDim_of_truthy hw,
        normDim_of_dimOK_not_truthy hdh hh', hwoe]
    · have hw' : truthyOpt (getField r "width") = false := by simpa using hw
      simp [hw', hh, normDim_of_dimOK_not_truthy hdw hw',
        normDim_of_truthy hh, hwoe]
    · rcases hor with h | h
      · exact absurd h hw
      · exact absurd h hh

theorem frag_rotate {t : Json} (h : (getField t "rotate").isNone = true) :
    syncRotate t = workerRotate t := by
  unfold syncRotate workerRotate getTruthy
  cases hg : getField t "rotate" with
  | none => rfl
  | some v => rw [hg] at h; simp at h

theorem frag_filters {t : Json}
    (h : (match getTruthy t "filters" with
      | some f =>
        !truthyOpt (getField f "sepia")
        && !truthyOpt (getField f "normalize")
        && !truthyOpt (getField f "gamma")
        && !truthyOpt (getField f "brightness")
        && !truthyOpt (getField f "saturation")
        && !truthyOpt (getField f "hue")
        && (match getTruthy f "blur" with
            | some (.num _) => true
            | some _ => false
            | none => true)
      | none => true) = true) :
    syncFilters t = workerFilters t := by
  unfold syncFilters workerFilters
  cases hg : getTruthy t "filters" with
  | none => rfl
  | some f =>
    rw [hg] at h
    simp only [Bool.and_eq_true, Bool.not_eq_true'] at h
    obtain ⟨⟨⟨⟨⟨⟨hsep, hnorm⟩, hgam⟩, hbri⟩, hsat⟩, hhue⟩, hblur⟩ := h
    have hgam' := getTruthy_eq_none hgam
    have hbri' := getTruthy_eq_none hbri
    have hsat' := getTruthy_eq_none hsat
    have hhue' := getTruthy_eq_none hhue
    cases hb : getTruthy f "blur" with
    | none => simp [hsep, hnorm, hgam', hbri', hsat', hhue', hb]
    | some b =>
      rw [hb] at hblur
      cases b <;> simp_all [hsep, hnorm, hgam', hbri', hsat', hhue', hb]

theorem frag_watermark {t : Json}
    (h : (match getTruthy t "watermark" with
      | some w => !truthyOpt (getField w "text")
      | none => true) = true) :
    workerWatermark t = [] := by
  unfold workerWatermark
  cases hg : getTruthy t "watermark" with
  | none => rfl
  | some w =>
    rw [hg] at h
    simp only [Bool.not_eq_true'] at h
    simp [h]

theorem frag_encode {t : Json} (extF extW : String)
    (hcomp : truthyOpt (getField t "compress") = false)
    (hfmt : (match getField t "format" with
      | some (.str s) => s == "png" || s == "webp"
      | _ => false) = true) :
    syncEncode t extF = workerEncode t extW := by
  unfold syncEncode workerEncode syncOutputFormat workerOutputFormat
  cases hg : getField t "format" with
  | none => rw [hg] at hfmt; simp at hfmt
  | some v =>
    rw [hg] at hfmt
    cases v with
    | str s =>
      have hs : s = "png" ∨ s = "webp" := by simpa using hfmt
      rcases hs with rfl | rfl
      · have hlow : lowerAscii "png" = "png" := by decide
        simp [jsOr, truthy, jsEqStr, hcomp, hlow]
      · have hlow : lowerAscii "webp" = "webp" := by decide
        simp [jsOr, truthy, jsEqStr, hcomp, hlow]
    | null => simp at hfmt
    | bool b => simp at hfmt
    | num q => simp at hfmt
    | arr xs => simp at hfmt
    | obj fs => simp at hfmt

/-- Amended C10: the synchronous inline pipeline and the worker pipeline do
not compute the same transformation in general; they issue identical sharp
calls exactly on the shared fragment — no watermark, no compress, no rotate,
filters limited to grayscale, numeric blur, sharpen and negate, resize
without `withoutEnlargement`, explicit png or webp format — and diverge
outside it (rotate background fill, the sepia desaturation step, the
extended filters, the watermark, mozjpeg, and the 60-when-compress quality
default exist only in the worker). -/
theorem c10_amended_paths_agree_on_fragment (t : Json) (extF extW : String)
    (h : commonFragment t = true) :
    syncStages t extF = workerStages t extW := by
  unfold commonFragment at h
  simp only [Bool.and_eq_true] at h
  obtain ⟨⟨⟨⟨⟨hwm, hcomp⟩, hrot⟩, hfil⟩, hres⟩, hfmt⟩ := h
  have hcomp' : truthyOpt (getField t "compress") = false := by simpa using hcomp
  unfold syncStages workerStages
  rw [frag_resize hres, frag_rotate hrot, frag_filters hfil, frag_watermark hwm,
    frag_encode extF extW hcomp' hfmt]
  simp [syncCrop, workerCrop, syncFlip, workerFlip, syncFlop, workerFlop]

/-- A concrete spec inside the shared fragment. -/
def c10frag : Json :=
  .obj [("resize", .obj [("width", .num 300)]),
        ("crop", .obj [("x", .num 10), ("width", .num 100), ("height", .num 80)]),
        ("flip", .bool true),
        ("filters", .obj [("grayscale", .bool true), ("blur", .num 2)]),
        ("format", .str "png"),
        ("quality", .num 70)]

/-- Witness for the amended C10 at a concrete fragment spec (the source
extensions even differ, as the fragment's explicit format makes them
irrelevant). -/
theorem c10_witness :
    commonFragment c10frag = true
    ∧ syncStages c10frag "jpeg" = workerStages c10frag "JPG" :=
  ⟨by decide, c10_amended_paths_agree_on_fragment c10frag "jpeg" "JPG" (by decide)⟩

/-- The spec `{compress:true}` on which the two pipelines diverge. -/
def c10cex : Json := .obj [("compress", .bool true)]

/-- Counterexample to claim C10: for `{compress:true}` on a jpeg source the
sync path encodes at quality 80 without mozjpeg while the worker encodes at
quality 60 with mozjpeg — the two paths do not compute the same
transformation. -/
theorem c10_counterexample :
    syncStages c10cex "jpeg" = [.jpeg (.num 80) false]
    ∧ workerStages c10cex "jpeg" = [.jpeg (.num 60) true]
    ∧ syncStages c10cex "jpeg" ≠ workerStages c10cex "jpeg" := by
  have h1 : syncStages c10cex "jpeg" = [.jpeg (.num 80) false] := by
    with_unfolding_all rfl
  have h2 : workerStages c10cex "jpeg" = [.jpeg (.num 60) true] := by
    with_unfolding_all rfl
  refine ⟨h1, h2, ?_⟩
  intro hEq
  rw [h1, h2] at hEq
  have hstage : Stage.jpeg (.num 80) false = Stage.jpeg (.num 60) true :=
    (List.cons.inj hEq).1
  injection hstage with hq hmoz
  injection hq with hr
  norm_num at hr

end ImageProc
